import Mathlib

/-!
Verification of the SN3218 LED driver library (`library/sn3218.py`).

The library talks to an 18-channel PWM LED controller over an i2c bus.  We
embed the register-encoding and gamma-correction core shallowly:

* Python integers are `ℤ` (arbitrary precision, two of the claims hinge on
  negative values).  For a non-negative power-of-two modulus Python gives
  `x & (2^k - 1) = x % 2^k` and `x >> k = ⌊x / 2^k⌋` even for negative `x`;
  Lean `%` and `/` on `ℤ` are `Int.emod` / `Int.ediv`, which agree with
  Python `%` and `//` whenever the divisor is positive, so the embedding of
  the bit operations is exact.
* A bus transaction `i2c.write_i2c_block_data(addr, cmd, data)` is recorded
  as an `I2CWrite`; a library call is embedded as the list of writes it
  performs, in order.  Functions that can raise return `Except PyError _`;
  in the source every raise happens before the first bus write of the call,
  so an erroneous call performs no write, which the embedding reflects by
  returning no write list at all.
* The gamma tables are computed from the float expression
  `int(255 * (i / 255) ** GAMMA)`.  We model the float arithmetic exactly
  over the reals at a rational exponent `GAMMA = p/q`: `int` truncates
  toward zero (= floor here, everything is non-negative), and for
  `0 ≤ n` and `1 ≤ q` we have `n ≤ 255 * (i/255)^(p/q)` iff
  `n^q * 255^p ≤ i^p * 255^q`, so the table entry is the greatest such
  `n ≤ 255`.  For the two exponents exercised by the claims (1.0 and the
  module default 1.4 = 7/5) this exact model provably coincides with the
  double-precision evaluation entry by entry.
-/

namespace SN3218

/-- Exceptions the library raises (`TypeError`, `ValueError` from explicit
checks, `IndexError` from list subscripts). -/
inductive PyError where
  | typeError
  | valueError
  | indexError
deriving DecidableEq

/-- The specification groups `TypeError` and `ValueError` (malformed
arguments, detected by explicit checks) under the error kind
`InvalidArgument`; `IndexError` escapes that classification. -/
def PyError.isInvalidArgument : PyError → Bool
  | .typeError => true
  | .valueError => true
  | .indexError => false

/-- One bus transaction: `i2c.write_i2c_block_data(I2C_ADDRESS, cmd, payload)`. -/
structure I2CWrite where
  cmd : ℕ
  payload : List ℤ
deriving DecidableEq

deriving instance DecidableEq for Except

set_option maxRecDepth 20000

def CMD_ENABLE_OUTPUT : ℕ := 0x00

def CMD_SET_PWM_VALUES : ℕ := 0x01

def CMD_ENABLE_LEDS : ℕ := 0x13

def CMD_UPDATE : ℕ := 0x16

def CMD_RESET : ℕ := 0x17

/-- `i2c_write(*arg, update=False)`: one block write, followed by the
update/latch command `(0x16, [0xFF])` when `update` is set. -/
def i2c_write (cmd : ℕ) (data : List ℤ) (update : Bool) : List I2CWrite :=
  if update then [⟨cmd, data⟩, ⟨CMD_UPDATE, [0xFF]⟩] else [⟨cmd, data⟩]

/-- `enable()`: write output-enable register with 0x01. -/
def enable : List I2CWrite := i2c_write CMD_ENABLE_OUTPUT [0x01] false

/-- `disable()`: write output-enable register with 0x00 (software shutdown). -/
def disable : List I2CWrite := i2c_write CMD_ENABLE_OUTPUT [0x00] false

/-- `reset()`: write the reset command with 0xFF. -/
def reset : List I2CWrite := i2c_write CMD_RESET [0xFF] false

/-- `enable_leds(enable_mask)`: splits the mask into three 6-bit groups.
Source: `[enable_mask & bitmask, (enable_mask >> 6) & bitmask,
(enable_mask >> 12) & bitmask]` with `bitmask = 0b111111`; in the embedding
`m & 0b111111` is `m % 64` and `m >> k` is `m / 2^k` (see module comment).
The `isinstance(enable_mask, int)` guard is absorbed by the type `ℤ`;
every integer is accepted. -/
def enable_leds (enable_mask : ℤ) : List I2CWrite :=
  i2c_write CMD_ENABLE_LEDS
    [enable_mask % 64, (enable_mask / 64) % 64, (enable_mask / 4096) % 64]
    true

/-- `~x`, Python bitwise complement on arbitrary-precision ints. -/
def py_invert (x : ℤ) : ℤ := -(x + 1)

/-- One entry of `int(255 * (i / 255) ** GAMMA)` at rational exponent
`GAMMA = p/q`, under exact real arithmetic: the greatest `n ≤ 255` with
`n/255 ≤ (i/255)^(p/q)`, the condition being equivalent (raise both sides
to the `q`-th power, clear denominators) to `n^q * 255^p ≤ i^p * 255^q`.
`int` truncates toward zero, which is the floor of these non-negative
values; the bound 255 is sound because `(i/255)^(p/q) ≤ 1` for `i ≤ 255`. -/
def gammaEntry (p q i : ℕ) : ℕ :=
  Nat.findGreatest (fun n => n ^ q * 255 ^ p ≤ i ^ p * 255 ^ q) 255

/-- `default_gamma_table = [int(255 * (i / 255) ** GAMMA) for i in range(256)]`
at exponent `GAMMA = p/q` (module default `GAMMA = 1.4`, i.e. `p/q = 7/5`). -/
def default_gamma_table (p q : ℕ) : List ℤ :=
  (List.range 256).map fun i => (gammaEntry p q i : ℤ)

/-- Modelled from the spec: the value `round(255 × (i/255)^exponent)` that
the specification prescribes for a curve entry, at exponent `p/q` — the
greatest `n ≤ 255` with `n - 1/2 ≤ 255 * (i/255)^(p/q)`, equivalently
`(2n-1)^q * 255^p ≤ i^p * 510^q` (the truncated subtraction at `n = 0`
is harmless: the condition there holds anyway).  This is round-half-up;
at the counterexample below the exact value lies strictly between two
half-integers, so every tie-breaking convention agrees. -/
def spec_round_entry (p q i : ℕ) : ℕ :=
  Nat.findGreatest (fun n => (2 * n - 1) ^ q * 255 ^ p ≤ i ^ p * 510 ^ q) 255

/-- The per-channel gamma table: `channel_gamma_table`, one curve for each
of the 18 channels. -/
abbrev GammaTable := List (List ℤ)

/-- `recalc_GAMMA()` at exponent `GAMMA = p/q`:
`default_gamma_table = [int(255 * (i / 255.0) ** GAMMA) for i in range(256)]`
followed by `channel_gamma_table = [default_gamma_table] * 18` — a full
reassignment of every channel to the freshly generated shared curve.  The
module-level initialisation performs the same two statements with the
default `GAMMA = 1.4`.  The result does not depend on the previous table. -/
def recalc_GAMMA (p q : ℕ) : GammaTable :=
  List.replicate 18 (default_gamma_table p q)

/-- The module-level `channel_gamma_table` right after import:
`GAMMA = 1.4`, so exponent `7/5`. -/
def init_channel_gamma_table : GammaTable := recalc_GAMMA 7 5

/-- `channel_gamma(channel, gamma_table)`: override the curve of a single
channel.  Checks, in source order: `channel` in `0..17` (else `ValueError`;
the `isinstance(channel, int)` guard is absorbed by the type `ℤ`), then
`gamma_table` a list of length 256 (else `TypeError`); on success only
entry `channel` of the table is replaced. -/
def channel_gamma (channel : ℤ) (gamma_table : List ℤ) (tbl : GammaTable) :
    Except PyError GammaTable :=
  if ¬ (0 ≤ channel ∧ channel ≤ 17) then .error .valueError
  else if gamma_table.length ≠ 256 then .error .typeError
  else .ok (tbl.set channel.toNat gamma_table)

/-- Python list subscript `l[v]`: a negative index counts from the end
(`l[v] = l[len(l) + v]` for `-len(l) ≤ v < 0`); an effective index outside
`0..len(l)-1` raises `IndexError`. -/
def pyIndex (l : List ℤ) (v : ℤ) : Except PyError ℤ :=
  let idx : ℤ := if v < 0 then v + l.length else v
  if h : 0 ≤ idx ∧ idx.toNat < l.length then .ok (l.get ⟨idx.toNat, h.2⟩)
  else .error .indexError

/-- The value a successful Python subscript `l[v]` returns: the element at
`v`, or at `len(l) + v` when `v` is negative. -/
def pyLookup (l : List ℤ) (v : ℤ) : ℤ :=
  l.getD (if v < 0 then v + l.length else v).toNat 0

/-- The list comprehension
`[channel_gamma_table[i][values[i]] for i in range(18)]`, evaluated left to
right on the channel/value pairs; the first failing subscript raises. -/
def buildPayload : List (List ℤ × ℤ) → Except PyError (List ℤ)
  | [] => .ok []
  | (c, v) :: rest =>
    match pyIndex c v with
    | .error e => .error e
    | .ok b =>
      match buildPayload rest with
      | .error e => .error e
      | .ok bs => .ok (b :: bs)

/-- `output(values)`: gamma-corrected write of all 18 PWM registers.  The
source checks `isinstance(values, list) and len(values) == 18` (else
`TypeError`), then evaluates the comprehension over `range(18)` — paired
here with the 18 curves of the table — and only then calls `i2c_write`
with `update=True`; every raise therefore precedes the first bus write,
which the `Except` embedding reflects by producing no write list. -/
def output (tbl : GammaTable) (values : List ℤ) :
    Except PyError (List I2CWrite) :=
  if values.length ≠ 18 then .error .typeError
  else
    match buildPayload (tbl.zip values) with
    | .error e => .error e
    | .ok payload => .ok (i2c_write CMD_SET_PWM_VALUES payload true)

/-- `output_raw(values)`: like `output` but bypassing the gamma table. -/
def output_raw (values : List ℤ) : Except PyError (List I2CWrite) :=
  if values.length ≠ 18 then .error .typeError
  else .ok (i2c_write CMD_SET_PWM_VALUES values true)

/-- The write trace of the sequence
`enable(); output([255]*18); disable(); reset(); enable()` starting from
the freshly imported module state (`GAMMA = 1.4` table). -/
def fullCycleTrace : Except PyError (List I2CWrite) :=
  match output init_channel_gamma_table (List.replicate 18 255) with
  | .error e => .error e
  | .ok w => .ok (enable ++ w ++ disable ++ reset ++ enable)

/-- Lower bound: the chosen entry `g` satisfies `g/255 ≤ (i/255)^(p/q)`. -/
theorem gammaEntry_le (p q i : ℕ) (hq : 1 ≤ q) :
    gammaEntry p q i ^ q * 255 ^ p ≤ i ^ p * 255 ^ q := by
  have h0 : (fun n => n ^ q * 255 ^ p ≤ i ^ p * 255 ^ q) 0 := by
    simp only
    rw [Nat.zero_pow (by omega), Nat.zero_mul]
    exact Nat.zero_le _
  exact Nat.findGreatest_spec
    (P := fun n => n ^ q * 255 ^ p ≤ i ^ p * 255 ^ q) (Nat.zero_le 255) h0

/-- Upper bound: `(g+1)/255 > (i/255)^(p/q)`, so `g` is the floor. -/
theorem gammaEntry_lt (p q i : ℕ) (hq : 1 ≤ q) (hi : i ≤ 255) :
    i ^ p * 255 ^ q < (gammaEntry p q i + 1) ^ q * 255 ^ p := by
  have key : ∀ n, gammaEntry p q i < n → n ≤ 255 →
      ¬ (n ^ q * 255 ^ p ≤ i ^ p * 255 ^ q) :=
    fun n h1 h2 => Nat.findGreatest_is_greatest
      (P := fun m => m ^ q * 255 ^ p ≤ i ^ p * 255 ^ q) h1 h2
  rcases Nat.lt_or_ge (gammaEntry p q i) 255 with h | h
  · exact not_le.mp (key _ (Nat.lt_succ_self _) (by omega))
  · have h255 : gammaEntry p q i = 255 := le_antisymm (Nat.findGreatest_le 255) h
    have h1 : i ^ p * 255 ^ q ≤ 255 ^ p * 255 ^ q :=
      Nat.mul_le_mul_right _ (Nat.pow_le_pow_left hi p)
    have h2 : 255 ^ p * 255 ^ q < 255 ^ p * 256 ^ q :=
      (Nat.mul_lt_mul_left (Nat.pos_pow_of_pos p (by omega))).mpr
        (Nat.pow_lt_pow_left (by omega) (by omega))
    calc i ^ p * 255 ^ q ≤ 255 ^ p * 255 ^ q := h1
      _ < 255 ^ p * 256 ^ q := h2
      _ = (gammaEntry p q i + 1) ^ q * 255 ^ p := by rw [h255]; ring

/-- At exponent `p/q = 1/1` the curve is the identity on `0..255`. -/
theorem gammaEntry_one_one (i : ℕ) (hi : i ≤ 255) : gammaEntry 1 1 i = i := by
  have h1 := gammaEntry_le 1 1 i le_rfl
  have h2 := gammaEntry_lt 1 1 i le_rfl hi
  simp only [pow_one] at h1 h2
  omega

/-- The curve is monotone in `i`: larger input, larger (or equal) entry. -/
theorem gammaEntry_mono (p q i j : ℕ) (hij : i ≤ j) :
    gammaEntry p q i ≤ gammaEntry p q j :=
  Nat.findGreatest_mono
    (fun _ hn => hn.trans (Nat.mul_le_mul_right _ (Nat.pow_le_pow_left hij p)))
    le_rfl

/-- The entry at `i = 0` is 0 whenever the exponent is positive. -/
theorem gammaEntry_zero (p q : ℕ) (hp : 1 ≤ p) : gammaEntry p q 0 = 0 := by
  unfold gammaEntry
  rw [Nat.findGreatest_eq_zero_iff]
  intro m hm _ hle
  rw [Nat.zero_pow (by omega), Nat.zero_mul] at hle
  have : 0 < m ^ q * 255 ^ p :=
    Nat.mul_pos (Nat.pos_pow_of_pos q hm) (Nat.pos_pow_of_pos p (by omega))
  omega

/-- The entry at `i = 255` is 255. -/
theorem gammaEntry_top (p q : ℕ) : gammaEntry p q 255 = 255 :=
  le_antisymm (Nat.findGreatest_le 255)
    (Nat.le_findGreatest le_rfl (by rw [Nat.mul_comm]))

/-- Reading the generated table: entry `i` of `default_gamma_table p q`. -/
theorem default_gamma_table_getD (p q i : ℕ) (hi : i < 256) :
    (default_gamma_table p q).getD i 0 = (gammaEntry p q i : ℤ) := by
  unfold default_gamma_table
  rw [List.getD_eq_getElem?_getD, List.getElem?_map, List.getElem?_range hi]
  rfl

/-- An in-bounds subscript succeeds and yields `pyLookup`. -/
theorem pyIndex_ok_eq (l : List ℤ) (v : ℤ) (h1 : -(l.length : ℤ) ≤ v)
    (h2 : v < l.length) : pyIndex l v = .ok (pyLookup l v) := by
  simp only [pyIndex, pyLookup]
  have hcond : 0 ≤ (if v < 0 then v + (l.length : ℤ) else v) ∧
      (if v < 0 then v + (l.length : ℤ) else v).toNat < l.length := by
    split <;> omega
  rw [dif_pos hcond, List.get_eq_getElem, List.getD_eq_getElem l 0 hcond.2]

/-- An out-of-bounds subscript raises `IndexError`. -/
theorem pyIndex_err (l : List ℤ) (v : ℤ)
    (h : v < -(l.length : ℤ) ∨ (l.length : ℤ) ≤ v) :
    pyIndex l v = .error .indexError := by
  simp only [pyIndex]
  rw [dif_neg]
  intro hcond
  rcases hcond with ⟨hc1, hc2⟩
  revert hc1 hc2
  split <;> omega

/-- `pyIndex` can raise nothing but `IndexError`. -/
theorem pyIndex_error_eq (l : List ℤ) (v : ℤ) (e : PyError)
    (h : pyIndex l v = .error e) : e = .indexError := by
  simp only [pyIndex] at h
  by_cases hc : 0 ≤ (if v < 0 then v + (l.length : ℤ) else v) ∧
      (if v < 0 then v + (l.length : ℤ) else v).toNat < l.length
  · rw [dif_pos hc] at h
    cases h
  · rw [dif_neg hc] at h
    cases h
    rfl

/-- When every pair is in range, the comprehension succeeds and returns the
pointwise `pyLookup` values. -/
theorem buildPayload_ok (pairs : List (List ℤ × ℤ))
    (h : ∀ pr ∈ pairs, -(pr.1.length : ℤ) ≤ pr.2 ∧ pr.2 < pr.1.length) :
    buildPayload pairs = .ok (pairs.map fun pr => pyLookup pr.1 pr.2) := by
  induction pairs with
  | nil => rfl
  | cons hd tl ih =>
    have hh := h hd (List.mem_cons_self hd tl)
    rw [buildPayload, pyIndex_ok_eq hd.1 hd.2 hh.1 hh.2,
      ih fun pr hpr => h pr (List.mem_cons_of_mem hd hpr)]
    rfl

/-- When all curves have length 256 and some value falls outside
`[-256, 255]`, the comprehension raises `IndexError` (whichever pair fails
first, the exception is the same). -/
theorem buildPayload_err (pairs : List (List ℤ × ℤ))
    (hall : ∀ pr ∈ pairs, pr.1.length = 256)
    (h : ∃ pr ∈ pairs, pr.2 < -256 ∨ 255 < pr.2) :
    buildPayload pairs = .error .indexError := by
  induction pairs with
  | nil => simp at h
  | cons hd tl ih =>
    rcases h with ⟨pr, hpr, hbad⟩
    rcases List.mem_cons.mp hpr with rfl | hmem
    · have hl := hall pr (List.mem_cons_self pr tl)
      rw [buildPayload, pyIndex_err pr.1 pr.2 (by omega)]
    · cases hcase : pyIndex hd.1 hd.2 with
      | error e =>
        rw [buildPayload, hcase, pyIndex_error_eq hd.1 hd.2 e hcase]
      | ok b =>
        rw [buildPayload, hcase,
          ih (fun x hx => hall x (List.mem_cons_of_mem hd hx)) ⟨pr, hmem, hbad⟩]

/-- A successful `output`: every value within `[-256, 255]` subscripts its
curve without raising, and the two writes (PWM command, then latch) are
issued with the pointwise-looked-up payload. -/
theorem output_ok (tbl : GammaTable) (values : List ℤ)
    (hcur : ∀ c ∈ tbl, c.length = 256) (hlen : values.length = 18)
    (hval : ∀ v ∈ values, -256 ≤ v ∧ v ≤ 255) :
    output tbl values =
      .ok [⟨CMD_SET_PWM_VALUES,
          (tbl.zip values).map fun pr => pyLookup pr.1 pr.2⟩,
        ⟨CMD_UPDATE, [0xFF]⟩] := by
  have hpairs : ∀ pr ∈ tbl.zip values,
      -(pr.1.length : ℤ) ≤ pr.2 ∧ pr.2 < pr.1.length := by
    intro pr hpr
    obtain ⟨a, b⟩ := pr
    obtain ⟨ha, hb⟩ := List.of_mem_zip hpr
    have h1 := hcur a ha
    have h2 := hval b hb
    simp only at h1 h2 ⊢
    omega
  unfold output
  rw [if_neg (not_not_intro hlen), buildPayload_ok _ hpairs]
  rfl

/-- Any value of `values` appears as the second component of a zip pair
when the table is at least as long as the value list. -/
theorem zip_pair_of_mem (tbl : GammaTable) (values : List ℤ)
    (htbl : tbl.length = 18) (hlen : values.length = 18)
    (v : ℤ) (hv : v ∈ values) : ∃ pr ∈ tbl.zip values, pr.2 = v := by
  obtain ⟨k, hk, hkv⟩ := List.getElem_of_mem hv
  have hkz : k < (tbl.zip values).length := by
    rw [List.length_zip]
    omega
  refine ⟨(tbl.zip values).get ⟨k, hkz⟩, List.getElem_mem hkz, ?_⟩
  rw [List.get_eq_getElem, List.getElem_zip]
  exact hkv

/-- `pyLookup` at a negative value on a 256-entry curve reads the entry at
`256 + v`, counting from the end. -/
theorem pyLookup_neg (l : List ℤ) (v : ℤ) (hl : l.length = 256)
    (hv : v < 0) : pyLookup l v = l.getD (v + 256).toNat 0 := by
  unfold pyLookup
  rw [if_pos hv, hl]
  norm_num

/-- C1: for every integer enable mask `m`, `enable_leds m` issues the
enable-channels command with a 3-byte payload, each byte in `[0, 63]`, and
`byte0 + byte1 * 2^6 + byte2 * 2^12` (equal to `byte0 | byte1 << 6 |
byte2 << 12`, the groups being disjoint) equals `m % 2^18`, which is
`m & 0x3FFFF` in Python. -/
theorem C1_enable_mask_roundtrip (m : ℤ) :
    ∃ b0 b1 b2 : ℤ,
      enable_leds m = [⟨CMD_ENABLE_LEDS, [b0, b1, b2]⟩, ⟨CMD_UPDATE, [0xFF]⟩] ∧
      0 ≤ b0 ∧ b0 ≤ 63 ∧ 0 ≤ b1 ∧ b1 ≤ 63 ∧ 0 ≤ b2 ∧ b2 ≤ 63 ∧
      b0 + b1 * 64 + b2 * 4096 = m % 262144 := by
  refine ⟨m % 64, (m / 64) % 64, (m / 4096) % 64, rfl, ?_⟩
  omega

/-- C2 counterexample: at the module default exponent `GAMMA = 1.4 = 7/5`
and input `i = 100`, the exact value `255 * (100/255)^1.4 = 68.767…` lies
strictly between `68.5` and `69` (the two strict-inequality conjuncts
below say exactly that, after clearing denominators), so `round` would
give 69 while the code computes `int(...) = 68`. -/
theorem C2_counterexample :
    gammaEntry 7 5 100 = 68 ∧
    spec_round_entry 7 5 100 = 69 ∧
    (default_gamma_table 7 5).getD 100 0 = 68 ∧
    137 ^ 5 * 255 ^ 7 < 100 ^ 7 * 510 ^ 5 ∧
    100 ^ 7 * 255 ^ 5 < 69 ^ 5 * 255 ^ 7 ∧
    (68 : ℕ) ≠ 69 := by
  refine ⟨by decide, by decide, ?_, by decide, by decide, by decide⟩
  rw [default_gamma_table_getD 7 5 100 (by omega)]
  decide

/-- C2 (amended): the generated curve truncates rather than rounds:
`curve[i] = int(255 * (i/255)^(p/q))`, i.e. entry `g` is the floor,
characterised by `g/255 ≤ (i/255)^(p/q) < (g+1)/255` (stated with cleared
denominators); with exponent `1.0` the curve is exactly the identity:
`curve[i] = i` for all `i` in `0..255`. -/
theorem C2_gamma_truncation (p q i : ℕ) (hp : 1 ≤ p) (hq : 1 ≤ q)
    (hi : i ≤ 255) :
    (default_gamma_table p q).getD i 0 = (gammaEntry p q i : ℤ) ∧
    gammaEntry p q i ^ q * 255 ^ p ≤ i ^ p * 255 ^ q ∧
    i ^ p * 255 ^ q < (gammaEntry p q i + 1) ^ q * 255 ^ p ∧
    (default_gamma_table 1 1).getD i 0 = (i : ℤ) := by
  refine ⟨default_gamma_table_getD p q i (by omega), gammaEntry_le p q i hq,
    gammaEntry_lt p q i hq hi, ?_⟩
  rw [default_gamma_table_getD 1 1 i (by omega), gammaEntry_one_one i hi]

/-- C2 witness: the amended theorem instantiated at the module default
exponent `7/5` and input `i = 100`. -/
theorem C2_witness :
    (default_gamma_table 7 5).getD 100 0 = (gammaEntry 7 5 100 : ℤ) ∧
    gammaEntry 7 5 100 ^ 5 * 255 ^ 7 ≤ 100 ^ 7 * 255 ^ 5 ∧
    100 ^ 7 * 255 ^ 5 < (gammaEntry 7 5 100 + 1) ^ 5 * 255 ^ 7 ∧
    (default_gamma_table 1 1).getD 100 0 = (100 : ℤ) :=
  C2_gamma_truncation 7 5 100 (by decide) (by decide) (by decide)

/-- C3 counterexample: override the curve of channel 5 with the all-zero
curve (this succeeds and channel 5 then holds it), then regenerate the
shared default with the new exponent `1.0`; afterwards channel 5 holds the
new identity curve — entry 255 is 255, not the overridden 0 — because
`recalc_GAMMA` reassigns all 18 channels.  The claim says the overridden
channel is left unchanged; it is not. -/
theorem C3_counterexample :
    Except.map (fun t => t.getD 5 [])
        (channel_gamma 5 (List.replicate 256 0) init_channel_gamma_table) =
      Except.ok (List.replicate 256 0) ∧
    (recalc_GAMMA 1 1).getD 5 [] = default_gamma_table 1 1 ∧
    (default_gamma_table 1 1).getD 255 0 = 255 ∧
    (List.replicate 256 (0 : ℤ)).getD 255 0 = 0 ∧
    (255 : ℤ) ≠ 0 := by
  exact ⟨by decide, rfl, by decide, by decide, by decide⟩

/-- C3 (amended): overriding a channel and then regenerating the shared
default with a new exponent discards the override: the regenerated table
assigns the newly generated curve to every channel, the overridden one
included, regardless of the previous table contents. -/
theorem C3_recalc_discards_overrides (c : ℤ) (hc0 : 0 ≤ c) (hc : c ≤ 17)
    (curve : List ℤ) (hlen : curve.length = 256) (tbl : GammaTable)
    (p q : ℕ) :
    (∃ t, channel_gamma c curve tbl = Except.ok t) ∧
    ∀ j, j < 18 → (recalc_GAMMA p q).getD j [] = default_gamma_table p q := by
  constructor
  · refine ⟨tbl.set c.toNat curve, ?_⟩
    unfold channel_gamma
    rw [if_neg (not_not_intro ⟨hc0, hc⟩), if_neg (not_not_intro hlen)]
  · intro j hj
    unfold recalc_GAMMA
    rw [List.getD_eq_getElem?_getD, List.getElem?_replicate, if_pos hj]
    rfl

/-- C3 witness: the amended theorem at channel 5, the all-zero override
curve, the freshly imported table, and new exponent `1.0`. -/
theorem C3_witness :
    (∃ t, channel_gamma 5 (List.replicate 256 0) init_channel_gamma_table =
      Except.ok t) ∧
    ∀ j, j < 18 → (recalc_GAMMA 1 1).getD j [] = default_gamma_table 1 1 :=
  C3_recalc_discards_overrides 5 (by decide) (by decide)
    (List.replicate 256 0) (by simp) init_channel_gamma_table 1 1

/-- C4 counterexample: the claim demands an `InvalidArgument` failure for
any value outside `[0, 255]`, but `output` never range-checks: with the
freshly imported table, the value `-1` (outside `[0, 255]`) raises
nothing — the subscript wraps around to the last curve entry
`curve[255] = 255` and both writes are issued. -/
theorem C4_counterexample :
    output init_channel_gamma_table (-1 :: List.replicate 17 0) =
      Except.ok [⟨CMD_SET_PWM_VALUES, 255 :: List.replicate 17 0⟩,
        ⟨CMD_UPDATE, [0xFF]⟩] ∧
    ((-1 : ℤ) < 0 ∨ 255 < (-1 : ℤ)) := by
  exact ⟨by decide, by decide⟩

/-- C4 (amended): `output` raises `TypeError` (of the `InvalidArgument`
kind) when `values` is not a list of exactly 18 values; it accepts every
list of 18 values inside `[-256, 255]` (negative values index from the end
of the curve) and raises `IndexError` — during payload construction, hence
before any bus write, the `Except` embedding returning no write list —
exactly when some value falls outside `[-256, 255]`. -/
theorem C4_output_error_conditions (tbl : GammaTable) (values : List ℤ)
    (htbl : tbl.length = 18) (hcur : ∀ c ∈ tbl, c.length = 256) :
    (values.length ≠ 18 →
      output tbl values = .error .typeError ∧
      PyError.typeError.isInvalidArgument = true) ∧
    (values.length = 18 → (∀ v ∈ values, -256 ≤ v ∧ v ≤ 255) →
      ∃ w, output tbl values = .ok w) ∧
    (values.length = 18 → (∃ v ∈ values, v < -256 ∨ 255 < v) →
      output tbl values = .error .indexError) := by
  refine ⟨fun h => ⟨?_, rfl⟩, fun hlen hval =>
    ⟨_, output_ok tbl values hcur hlen hval⟩, fun hlen hbad => ?_⟩
  · unfold output
    rw [if_pos h]
  · obtain ⟨v, hv, hvbad⟩ := hbad
    obtain ⟨pr, hpr, hprv⟩ := zip_pair_of_mem tbl values htbl hlen v hv
    unfold output
    rw [if_neg (not_not_intro hlen), buildPayload_err _ ?hall ⟨pr, hpr, by omega⟩]
    case hall =>
      intro x hx
      obtain ⟨a, b⟩ := x
      exact hcur a (List.of_mem_zip hx).1

/-- C4 witness: the length check at the empty list, and the success branch
at 18 in-range values, both on the freshly imported table. -/
theorem C4_witness :
    (output init_channel_gamma_table [] = .error .typeError ∧
      PyError.typeError.isInvalidArgument = true) ∧
    ∃ w, output init_channel_gamma_table (List.replicate 18 7) =
      Except.ok w :=
  ⟨(C4_output_error_conditions init_channel_gamma_table [] (by decide)
      (by decide)).1 (by decide),
    (C4_output_error_conditions init_channel_gamma_table
      (List.replicate 18 7) (by decide) (by decide)).2.1 (by decide)
      (by decide)⟩

/-- C5 counterexample: the claimed total of exactly 5 command writes for
`enable(); output([255]*18); disable(); reset(); enable()` is off by one —
the trace holds 6 writes, because `output` issues its PWM write and a
separate latch write. -/
theorem C5_counterexample :
    Except.map List.length fullCycleTrace = Except.ok 6 ∧ (6 : ℕ) ≠ 5 := by
  exact ⟨by decide, by decide⟩

/-- C5 (amended): each of `enable_leds`, `output` and `output_raw` issues
its register write followed by the separate update/latch command
`(0x16, [0xFF])`; `enable`, `disable` and `reset` each issue a single
write and no latch; consequently the cycle
`enable(); output([255]*18); disable(); reset(); enable()` issues exactly
6 command writes (5 of them pairwise distinct — `enable` appears twice). -/
theorem C5_latch_protocol :
    (∀ m : ℤ, ∃ pl, enable_leds m =
      [⟨CMD_ENABLE_LEDS, pl⟩, ⟨CMD_UPDATE, [0xFF]⟩]) ∧
    (∀ tbl values w, output tbl values = Except.ok w →
      ∃ pl, w = [⟨CMD_SET_PWM_VALUES, pl⟩, ⟨CMD_UPDATE, [0xFF]⟩]) ∧
    (∀ values w, output_raw values = Except.ok w →
      w = [⟨CMD_SET_PWM_VALUES, values⟩, ⟨CMD_UPDATE, [0xFF]⟩]) ∧
    enable = [⟨CMD_ENABLE_OUTPUT, [0x01]⟩] ∧
    disable = [⟨CMD_ENABLE_OUTPUT, [0x00]⟩] ∧
    reset = [⟨CMD_RESET, [0xFF]⟩] ∧
    Except.map List.length fullCycleTrace = Except.ok 6 := by
  refine ⟨fun m => ⟨_, rfl⟩, fun tbl values w hw => ?_,
    fun values w hw => ?_, rfl, rfl, rfl, by decide⟩
  · unfold output at hw
    by_cases h : values.length ≠ 18
    · rw [if_pos h] at hw
      cases hw
    · rw [if_neg h] at hw
      cases hb : buildPayload (tbl.zip values) with
      | error e =>
        rw [hb] at hw
        cases hw
      | ok payload =>
        rw [hb] at hw
        cases hw
        exact ⟨payload, rfl⟩
  · unfold output_raw at hw
    by_cases h : values.length ≠ 18
    · rw [if_pos h] at hw
      cases hw
    · rw [if_neg h] at hw
      cases hw
      rfl

/-- C5 witness: the `output_raw` clause applied at a concrete successful
call. -/
theorem C5_witness :
    output_raw (List.replicate 18 0) =
      Except.ok [⟨CMD_SET_PWM_VALUES, List.replicate 18 0⟩,
        ⟨CMD_UPDATE, [0xFF]⟩] ∧
    [(⟨CMD_SET_PWM_VALUES, List.replicate 18 0⟩ : I2CWrite),
        ⟨CMD_UPDATE, [0xFF]⟩] =
      [⟨CMD_SET_PWM_VALUES, List.replicate 18 0⟩, ⟨CMD_UPDATE, [0xFF]⟩] :=
  ⟨by decide, C5_latch_protocol.2.2.1 (List.replicate 18 0) _ (by decide)⟩

/-- C6 counterexample: the mask `0b100000_000001_000001` (bits 0, 6 and 17)
encodes to bytes `(0x01, 0x01, 0x20)`, not `(0x21, 0x01, 0x21)` as the
claim states. -/
theorem C6_counterexample :
    enable_leds 0b100000000001000001 =
      [⟨CMD_ENABLE_LEDS, [0x01, 0x01, 0x20]⟩, ⟨CMD_UPDATE, [0xFF]⟩] ∧
    enable_leds 0b100000000001000001 ≠
      [⟨CMD_ENABLE_LEDS, [0x21, 0x01, 0x21]⟩, ⟨CMD_UPDATE, [0xFF]⟩] := by
  constructor
  · decide
  · decide

/-- C6 (amended): `enable_leds 0b100000_000001_000001` encodes to
`byte0 = 0x01` (bit 0: channel 1), `byte1 = 0x01` (bit 0: channel 7),
`byte2 = 0x20` (bit 5: channel 18), matching the mask groups
`(0..5)`, `(6..11)`, `(12..17)`. -/
theorem C6_enable_leds_concrete :
    enable_leds 0b100000000001000001 =
      [⟨CMD_ENABLE_LEDS, [0x01, 0x01, 0x20]⟩, ⟨CMD_UPDATE, [0xFF]⟩] := by
  decide

/-- C7: for every positive rational exponent `p/q`, the generated curve is
monotonically non-decreasing, and its endpoints are `curve[0] = 0` and
`curve[255] = 255`. -/
theorem C7_curve_monotone_endpoints (p q : ℕ) (hp : 1 ≤ p) (hq : 1 ≤ q) :
    (∀ i j, i ≤ j → j ≤ 255 →
      (default_gamma_table p q).getD i 0 ≤ (default_gamma_table p q).getD j 0) ∧
    (default_gamma_table p q).getD 0 0 = 0 ∧
    (default_gamma_table p q).getD 255 0 = 255 := by
  refine ⟨fun i j hij hj => ?_, ?_, ?_⟩
  · rw [default_gamma_table_getD p q i (by omega),
      default_gamma_table_getD p q j (by omega)]
    exact_mod_cast gammaEntry_mono p q i j hij
  · rw [default_gamma_table_getD p q 0 (by omega), gammaEntry_zero p q hp]
    rfl
  · rw [default_gamma_table_getD p q 255 (by omega), gammaEntry_top p q]
    rfl

/-- C7 witness: the theorem at the module default exponent `7/5`, and its
monotone part instantiated at `i = 100 ≤ j = 200`. -/
theorem C7_witness :
    (default_gamma_table 7 5).getD 100 0 ≤ (default_gamma_table 7 5).getD 200 0 ∧
    (default_gamma_table 7 5).getD 0 0 = 0 ∧
    (default_gamma_table 7 5).getD 255 0 = 255 :=
  ⟨(C7_curve_monotone_endpoints 7 5 (by decide) (by decide)).1 100 200
      (by decide) (by decide),
    (C7_curve_monotone_endpoints 7 5 (by decide) (by decide)).2⟩

/-- C8: `channel_gamma` rejects a channel outside `0..17` and a curve whose
length is not 256 — both raises are of the `InvalidArgument` kind
(`ValueError` and `TypeError` respectively) — and on success it replaces
exactly the entry of the given channel, leaving every other channel
untouched. -/
theorem C8_channel_gamma_single_override (c : ℤ) (curve : List ℤ)
    (tbl : GammaTable) :
    (¬ (0 ≤ c ∧ c ≤ 17) →
      channel_gamma c curve tbl = .error .valueError ∧
      PyError.valueError.isInvalidArgument = true) ∧
    ((0 ≤ c ∧ c ≤ 17) → curve.length ≠ 256 →
      channel_gamma c curve tbl = .error .typeError ∧
      PyError.typeError.isInvalidArgument = true) ∧
    ((0 ≤ c ∧ c ≤ 17) → curve.length = 256 →
      channel_gamma c curve tbl = .ok (tbl.set c.toNat curve) ∧
      (c.toNat < tbl.length →
        (tbl.set c.toNat curve).getD c.toNat [] = curve) ∧
      ∀ j, j ≠ c.toNat →
        (tbl.set c.toNat curve).getD j [] = tbl.getD j []) := by
  refine ⟨fun h => ⟨?_, rfl⟩, fun h1 h2 => ⟨?_, rfl⟩, fun h1 h2 => ⟨?_, ?_, ?_⟩⟩
  · unfold channel_gamma
    rw [if_pos h]
  · unfold channel_gamma
    rw [if_neg (not_not_intro h1), if_pos h2]
  · unfold channel_gamma
    rw [if_neg (not_not_intro h1), if_neg (not_not_intro h2)]
  · intro hlt
    rw [List.getD_eq_getElem _ _ (by simpa using hlt)]
    exact List.getElem_set_self _
  · intro j hj
    rw [List.getD_eq_getElem?_getD, List.getD_eq_getElem?_getD,
      List.getElem?_set_ne (Ne.symm hj)]

/-- C8 witness: the theorem instantiated at channel 5, a length-256 curve
and the freshly imported table, exercising the success branch. -/
theorem C8_witness :
    channel_gamma 5 (List.replicate 256 0) init_channel_gamma_table =
      .ok (init_channel_gamma_table.set 5 (List.replicate 256 0)) ∧
    (5 < init_channel_gamma_table.length →
      (init_channel_gamma_table.set 5 (List.replicate 256 0)).getD 5 [] =
        List.replicate 256 0) ∧
    ∀ j, j ≠ 5 →
      (init_channel_gamma_table.set 5 (List.replicate 256 0)).getD j [] =
        init_channel_gamma_table.getD j [] :=
  (C8_channel_gamma_single_override 5 (List.replicate 256 0)
    init_channel_gamma_table).2.2 (by decide) (by simp)

/-- C9: with a well-formed table (18 curves of 256 entries), `output`
raises nothing when every value lies in `[-256, 255]`: a negative value
`v` makes the written byte the gamma-curve entry at index `256 + v`
(Python negative indexing), and both writes go out; only a value outside
`[-256, 255]` raises, an `IndexError` from the payload comprehension,
before any bus write. -/
theorem C9_negative_values_index_from_end (tbl : GammaTable)
    (values : List ℤ) (htbl : tbl.length = 18)
    (hcur : ∀ c ∈ tbl, c.length = 256) (hlen : values.length = 18) :
    ((∀ v ∈ values, -256 ≤ v ∧ v ≤ 255) →
      ∃ payload, output tbl values =
          .ok [⟨CMD_SET_PWM_VALUES, payload⟩, ⟨CMD_UPDATE, [0xFF]⟩] ∧
        payload.length = 18 ∧
        ∀ k, k < 18 → values.getD k 0 < 0 →
          payload.getD k 0 =
            (tbl.getD k []).getD (values.getD k 0 + 256).toNat 0) ∧
    ((∃ v ∈ values, v < -256 ∨ 255 < v) →
      output tbl values = .error .indexError) := by
  constructor
  · intro hval
    refine ⟨(tbl.zip values).map fun pr => pyLookup pr.1 pr.2,
      output_ok tbl values hcur hlen hval, ?_, ?_⟩
    · rw [List.length_map, List.length_zip, htbl, hlen]
      rfl
    · intro k hk hneg
      have hkt : k < tbl.length := by omega
      have hkv : k < values.length := by omega
      have hkz : k < (tbl.zip values).length := by
        rw [List.length_zip]
        omega
      have hkm : k < ((tbl.zip values).map
          fun pr => pyLookup pr.1 pr.2).length := by
        rw [List.length_map]
        exact hkz
      rw [List.getD_eq_getElem _ _ hkm, List.getElem_map, List.getElem_zip,
        List.getD_eq_getElem _ _ hkt]
      rw [List.getD_eq_getElem _ _ hkv] at hneg ⊢
      exact pyLookup_neg _ _ (hcur _ (List.getElem_mem hkt)) hneg
  · intro hbad
    obtain ⟨v, hv, hvbad⟩ := hbad
    obtain ⟨pr, hpr, hprv⟩ := zip_pair_of_mem tbl values htbl hlen v hv
    unfold output
    rw [if_neg (not_not_intro hlen), buildPayload_err _ ?hall ⟨pr, hpr, by omega⟩]
    case hall =>
      intro x hx
      obtain ⟨a, b⟩ := x
      exact hcur a (List.of_mem_zip hx).1

/-- C9 witness: the freshly imported table with values `[-1, 0, …, 0]`:
the negative value raises nothing and channel 0 gets `curve[255]`. -/
theorem C9_witness :
    ∃ payload, output init_channel_gamma_table (-1 :: List.replicate 17 0) =
        .ok [⟨CMD_SET_PWM_VALUES, payload⟩, ⟨CMD_UPDATE, [0xFF]⟩] ∧
      payload.length = 18 ∧
      ∀ k, k < 18 → ((-1 : ℤ) :: List.replicate 17 0).getD k 0 < 0 →
        payload.getD k 0 =
          (init_channel_gamma_table.getD k []).getD
            (((-1 : ℤ) :: List.replicate 17 0).getD k 0 + 256).toNat 0 :=
  (C9_negative_values_index_from_end init_channel_gamma_table
    (-1 :: List.replicate 17 0) (by decide) (by decide) (by decide)).1
    (by decide)

/-- C10: `enable_leds` is total on `ℤ` (no raise for any integer) and every
payload byte it emits lies in `[0, 255]`; the negative mask `-1`, equally
the complement `~0` from the scripted test sequence, encodes to
`(0x3F, 0x3F, 0x3F)`, the same bytes as the all-on mask `0x3FFFF`. -/
theorem C10_enable_leds_negative_masks :
    (∀ m : ℤ, (enable_leds m).length = 2 ∧
      ∀ w ∈ enable_leds m, ∀ b ∈ w.payload, 0 ≤ b ∧ b ≤ 255) ∧
    py_invert 0 = -1 ∧
    enable_leds (-1) =
      [⟨CMD_ENABLE_LEDS, [0x3F, 0x3F, 0x3F]⟩, ⟨CMD_UPDATE, [0xFF]⟩] ∧
    enable_leds (-1) = enable_leds 0x3FFFF := by
  refine ⟨fun m => ⟨rfl, ?_⟩, by decide, by decide, by decide⟩
  intro w hw b hb
  simp [enable_leds, i2c_write] at hw
  rcases hw with rfl | rfl <;> simp at hb
  · rcases hb with rfl | rfl | rfl <;> omega
  · rcases hb with rfl
    omega

/-- C10 witness: instantiating the bound part at the concrete write and
byte emitted by `enable_leds (-1)`. -/
theorem C10_witness : (0 : ℤ) ≤ 0x3F ∧ (0x3F : ℤ) ≤ 255 :=
  (C10_enable_leds_negative_masks.1 (-1)).2
    ⟨CMD_ENABLE_LEDS, [0x3F, 0x3F, 0x3F]⟩ (by decide) 0x3F (by decide)

end SN3218
